import Mathlib

/-!
Shallow embedding of the YC directory MCP server (src/yc_mcp.py).

Python strings are modelled as lists of Unicode code points (`Str`), with
`str.lower()` / `str.upper()` modelled on the ASCII range (the range the
directory data and the spec's examples use).  An HTTP fetch is modelled by a
`Fetch` value: either the parsed JSON payload or a failure description, exactly
the two outcomes the `try/except` blocks in the source distinguish.  A company
record is a structure of optional fields, mirroring the duck-typed dictionary
access (`c.get(key, default)` becomes `Option.getD`, `c[key]` becomes a match
that can raise).  Every tool returns a `Result`: either the structured payload
or the single error string of the `{"error": str(e)}` dictionaries.  The one
handler without a `try/except`, `company_resource`, is given the type
`Option (Result ..)` where `none` models an uncaught Python exception.
-/

namespace YCMcp

/-- A Python string, as its list of Unicode code points. -/
abbrev Str := List Nat

/-- ASCII case folding of one code point, modelling the per-character action of
Python `str.lower()` on the ASCII range. -/
def lowerCp (n : Nat) : Nat := if 65 ≤ n ∧ n ≤ 90 then n + 32 else n

/-- ASCII upper-casing of one code point, modelling Python `str.upper()` on the
ASCII range. -/
def upperCp (n : Nat) : Nat := if 97 ≤ n ∧ n ≤ 122 then n - 32 else n

/-- Python `s.lower()`. -/
def lowerStr (s : Str) : Str := s.map lowerCp

/-- Python `s.upper()`. -/
def upperStr (s : Str) : Str := s.map upperCp

/-- Embeds a Lean string literal as a `Str` (used only for the literal text the
source contains). -/
def strLit (s : String) : Str := s.data.map Char.toNat

/-- Decimal rendering of a natural number, as Python `f"{n}"` produces. -/
def natToStr (n : Nat) : Str := (Nat.toDigits 10 n).map Char.toNat

/-- Prefix test on code-point lists. -/
def isPrefixCp : Str → Str → Bool
  | [], _ => true
  | _ :: _, [] => false
  | a :: as, b :: bs => a == b && isPrefixCp as bs

/-- Python substring containment `needle in hay`. -/
def isSubstr (needle : Str) : Str → Bool
  | [] => needle.isEmpty
  | b :: bs => isPrefixCp needle (b :: bs) || isSubstr needle bs

/-- A company record: the fields of the upstream JSON documents the source
reads.  Every field is optional, as in the JSON. -/
structure Company where
  slug : Option Str
  name : Option Str
  one_liner : Option Str
  long_description : Option Str
  batch : Option Str
  status : Option Str
  team_size : Option Nat
  industries : Option (List Str)
  tags : Option (List Str)
  industry : Option Str
deriving DecidableEq

/-- A company record with every field absent. -/
def Company.empty : Company :=
  { slug := none, name := none, one_liner := none, long_description := none
  , batch := none, status := none, team_size := none, industries := none
  , tags := none, industry := none }

/-- Outcome of one HTTP fetch: the parsed payload, or the failure description
that `str(e)` would produce for the raised `requests` exception. -/
inductive Fetch (α : Type) where
  | ok : α → Fetch α
  | err : Str → Fetch α
deriving DecidableEq

/-- A tool result: the structured payload, or the single string of an
`{"error": msg}` dictionary. -/
inductive Result (α : Type) where
  | ok : α → Result α
  | error : Str → Result α
deriving DecidableEq

/-- Python `d.get("error")` rendered into an f-string: the error message when
the result is an error, the text `None` otherwise. -/
def resultErrStr {α : Type} : Result α → Str
  | .error e => e
  | .ok _ => strLit "None"

/-- Python list slicing `l[:n]` for an arbitrary integer `n`. -/
def pySliceTo {α : Type} (l : List α) (n : Int) : List α :=
  if 0 ≤ n then l.take n.toNat else l.take (l.length - n.natAbs)

/-- Default of the `limit` parameter of `list_top_companies` (line 10). -/
def listTopDefaultLimit : Int := 10

/-- Default of the `limit` parameter of `filter_companies` (line 352). -/
def filterDefaultLimit : Int := 50

/-- Lines 9-27: fetch the top-companies collection and return its first
`limit` records. -/
def list_top_companies (f : Fetch (List Company)) (limit : Int) :
    Result (List Company) :=
  match f with
  | .ok data => .ok (pySliceTo data limit)
  | .err e => .error e

/-- Lines 29-46: fetch one company record by slug. -/
def get_company_details (f : Fetch Company) : Result Company :=
  match f with
  | .ok c => .ok c
  | .err e => .error e

/-- Payload of `list_companies_by_batch`. -/
structure BatchList where
  batch : Str
  companies : List Company
deriving DecidableEq

/-- Lines 48-65: fetch the collection of one batch. -/
def list_companies_by_batch (f : Fetch (List Company)) (batch : Str) :
    Result BatchList :=
  match f with
  | .ok data => .ok { batch := batch, companies := data }
  | .err e => .error e

/-- The message `str(e)` gives for the `KeyError` raised by `c["name"]` on a
record without a `name` field: the key in single quotes. -/
def pyKeyErrorName : Str := [39] ++ strLit "name" ++ [39]

/-- The per-record test of line 83:
`keyword.lower() in c["name"].lower() or keyword.lower() in c.get("one_liner", "").lower()`.
A record without `name` raises `KeyError("name")`. -/
def searchAccept (kw : Str) (c : Company) : Except Str Bool :=
  match c.name with
  | none => .error pyKeyErrorName
  | some nm =>
      .ok (isSubstr (lowerStr kw) (lowerStr nm) ||
           isSubstr (lowerStr kw) (lowerStr (c.one_liner.getD [])))

/-- The list comprehension of line 83: keeps the accepted records, and aborts
with the first raised exception. -/
def searchFilter (kw : Str) : List Company → Except Str (List Company)
  | [] => .ok []
  | c :: rest =>
      match searchAccept kw c with
      | .error e => .error e
      | .ok b =>
          match searchFilter kw rest with
          | .error e => .error e
          | .ok ms => .ok (if b then c :: ms else ms)

/-- Lines 67-86: keyword search over the full collection; any exception inside
the `try` block (network failure or `KeyError`) becomes an error result. -/
def search_companies (f : Fetch (List Company)) (kw : Str) :
    Result (List Company) :=
  match f with
  | .err e => .error e
  | .ok cs =>
      match searchFilter kw cs with
      | .error e => .error e
      | .ok ms => .ok ms

/-- Lines 88-110: compare the `team_size` of two fetched company records.
Missing `team_size` becomes 0 via `c.get("team_size", 0)`; if either fetch
failed the two `get("error")` values are joined into one message. -/
def compare_company_sizes (f1 f2 : Fetch Company) (slug1 slug2 : Str) :
    Result Str :=
  let c1 := get_company_details f1
  let c2 := get_company_details f2
  match c1, c2 with
  | .ok r1, .ok r2 =>
      .ok (slug1 ++ strLit " (" ++ natToStr (r1.team_size.getD 0) ++
           strLit ") vs " ++ slug2 ++ strLit " (" ++
           natToStr (r2.team_size.getD 0) ++ strLit ")")
  | _, _ =>
      .error (strLit "Failed to fetch details. " ++ resultErrStr c1 ++
              strLit " " ++ resultErrStr c2)

/-- Lines 112-128: the company resource handler.  It has no `try/except`; on a
successful fetch it reads `result["name"]`, so a record without `name` raises
an uncaught `KeyError`, modelled by `none`. -/
def company_resource (f : Fetch Company) : Option (Result Str) :=
  match get_company_details f with
  | .error e => some (.error e)
  | .ok c =>
      match c.name with
      | none => none
      | some nm =>
          some (.ok (nm ++ strLit ": " ++
                     c.one_liner.getD (strLit "No one-liner")))

/-- Lines 147-163: fetch the full collection, unsliced. -/
def list_all_companies (f : Fetch (List Company)) : Result (List Company) :=
  match f with
  | .ok data => .ok data
  | .err e => .error e

/-- Lines 165-180: curated subset, unsliced. -/
def list_black_founded_companies (f : Fetch (List Company)) :
    Result (List Company) :=
  match f with
  | .ok data => .ok data
  | .err e => .error e

/-- Lines 182-197: curated subset, unsliced. -/
def list_hispanic_latino_founded_companies (f : Fetch (List Company)) :
    Result (List Company) :=
  match f with
  | .ok data => .ok data
  | .err e => .error e

/-- Lines 199-214: curated subset, unsliced. -/
def list_women_founded_companies (f : Fetch (List Company)) :
    Result (List Company) :=
  match f with
  | .ok data => .ok data
  | .err e => .error e

/-- Lines 216-231: curated subset, unsliced. -/
def list_nonprofit_companies (f : Fetch (List Company)) :
    Result (List Company) :=
  match f with
  | .ok data => .ok data
  | .err e => .error e

/-- Lines 233-248: curated subset, unsliced. -/
def list_hiring_companies (f : Fetch (List Company)) : Result (List Company) :=
  match f with
  | .ok data => .ok data
  | .err e => .error e

/-- Payload of `list_companies_by_industry`. -/
structure IndustryList where
  industry : Str
  companies : List Company
deriving DecidableEq

/-- Lines 250-271: fetch the collection of one industry, unsliced. -/
def list_companies_by_industry (f : Fetch (List Company)) (ind : Str) :
    Result IndustryList :=
  match f with
  | .ok data => .ok { industry := ind, companies := data }
  | .err e => .error e

/-- Payload of `list_companies_by_tag`. -/
structure TagList where
  tag : Str
  companies : List Company
deriving DecidableEq

/-- Lines 273-294: fetch the collection of one tag, unsliced. -/
def list_companies_by_tag (f : Fetch (List Company)) (tag : Str) :
    Result TagList :=
  match f with
  | .ok data => .ok { tag := tag, companies := data }
  | .err e => .error e

/-- The sentinel label of `get_industry_stats` and of the singular-industry
distributions of `compare_companies_by_batch`. -/
def UNKNOWN : Str := strLit "Unknown"

/-- Python `d.get(k, 0)` on a counting dictionary, modelled as an
insertion-ordered association list. -/
def dictGet (m : List (Str × Nat)) (k : Str) : Nat :=
  match m with
  | [] => 0
  | (k2, v) :: rest => if k2 = k then v else dictGet rest k

/-- Python `d[k] = v`: replace the value of an existing key in place, append a
new key at the end (dictionaries preserve insertion order). -/
def dictSet (m : List (Str × Nat)) (k : Str) (v : Nat) : List (Str × Nat) :=
  match m with
  | [] => [(k, v)]
  | (k2, v2) :: rest =>
      if k2 = k then (k2, v) :: rest else (k2, v2) :: dictSet rest k v

/-- Python `d[k] = d.get(k, 0) + 1`. -/
def bumpKey (m : List (Str × Nat)) (k : Str) : List (Str × Nat) :=
  dictSet m k (dictGet m k + 1)

/-- Sum of the values of a counting dictionary. -/
def sumCounts (m : List (Str × Nat)) : Nat := (m.map Prod.snd).sum

/-- Lines 327-333: per-batch singular-industry distribution,
`company.get("industry", "Unknown")` counted into a dictionary. -/
def industryDist (cs : List Company) : List (Str × Nat) :=
  List.foldl (fun m c => bumpKey m (c.industry.getD UNKNOWN)) [] cs

/-- One batch's block in the batch-comparison payload. -/
structure BatchStats where
  name : Str
  count : Nat
  industries : List (Str × Nat)
deriving DecidableEq

/-- Payload of `compare_companies_by_batch`. -/
structure BatchComparison where
  comparison : Str
  batch1 : BatchStats
  batch2 : BatchStats
deriving DecidableEq

/-- Lines 296-349: fetch two batch collections and compare their sizes and
singular-industry distributions; if either sub-fetch failed the two
`get("error")` values are joined into one message. -/
def compare_companies_by_batch (f1 f2 : Fetch (List Company)) (b1 b2 : Str) :
    Result BatchComparison :=
  let d1 := list_companies_by_batch f1 b1
  let d2 := list_companies_by_batch f2 b2
  match d1, d2 with
  | .ok r1, .ok r2 =>
      .ok { comparison := b1 ++ strLit " (" ++ natToStr r1.companies.length ++
                          strLit " companies) vs " ++ b2 ++ strLit " (" ++
                          natToStr r2.companies.length ++ strLit " companies)"
          , batch1 := { name := b1, count := r1.companies.length
                      , industries := industryDist r1.companies }
          , batch2 := { name := b2, count := r2.companies.length
                      , industries := industryDist r2.companies } }
  | _, _ =>
      .error (strLit "Failed to fetch batch data. " ++ resultErrStr d1 ++
              strLit " " ++ resultErrStr d2)

/-- The keyword predicate of `filter_companies` (lines 378-381): case-
insensitive substring match against `name`, `one_liner` or
`long_description`, each read with `c.get(field, "")`. -/
def kwPred (kw : Str) (c : Company) : Bool :=
  isSubstr (lowerStr kw) (lowerStr (c.name.getD [])) ||
  isSubstr (lowerStr kw) (lowerStr (c.one_liner.getD [])) ||
  isSubstr (lowerStr kw) (lowerStr (c.long_description.getD []))

/-- The industry predicate of `filter_companies` (lines 386-387): case-
insensitive exact membership in `c.get("industries", [])`. -/
def industryPred (ind : Str) (c : Company) : Bool :=
  ((c.industries.getD []).map lowerStr).contains (lowerStr ind)

/-- The batch predicate of `filter_companies` (lines 392-393): case-
insensitive exact match against `c.get("batch", "")`. -/
def batchPred (b : Str) (c : Company) : Bool :=
  lowerStr b == lowerStr (c.batch.getD [])

/-- The tag predicate of `filter_companies` (lines 398-399): case-insensitive
exact membership in `c.get("tags", [])`. -/
def tagPred (t : Str) (c : Company) : Bool :=
  ((c.tags.getD []).map lowerStr).contains (lowerStr t)

/-- The optional parameters of `filter_companies`; `none` is Python `None`
(parameter not supplied). -/
structure FilterParams where
  keyword : Option Str
  industry : Option Str
  batch : Option Str
  tag : Option Str
deriving DecidableEq

/-- One `if param: filtered = [c for c in filtered if pred]` step; Python
truthiness skips the step for `None` and for the empty string. -/
def applyOpt (o : Option Str) (pred : Str → Company → Bool)
    (cs : List Company) : List Company :=
  match o with
  | none => cs
  | some s => if s = [] then cs else cs.filter (pred s)

/-- Lines 374-400: the four filter steps of `filter_companies`, applied in the
source's order (keyword, industry, batch, tag). -/
def applyFilters (ps : FilterParams) (cs : List Company) : List Company :=
  applyOpt ps.tag tagPred
    (applyOpt ps.batch batchPred
      (applyOpt ps.industry industryPred
        (applyOpt ps.keyword kwPred cs)))

/-- Whether one company passes one optional predicate of `filter_companies`
(vacuously when the parameter is unsupplied or empty, matching Python
truthiness). -/
def passOpt (o : Option Str) (pred : Str → Company → Bool) (c : Company) :
    Bool :=
  match o with
  | none => true
  | some s => if s = [] then true else pred s c

/-- Whether one company passes every supplied predicate of `filter_companies`. -/
def keepPred (ps : FilterParams) (c : Company) : Bool :=
  passOpt ps.keyword kwPred c && passOpt ps.industry industryPred c &&
  passOpt ps.batch batchPred c && passOpt ps.tag tagPred c

/-- Payload of `filter_companies`.  The echoed `filters` description strings
of the source's payload carry no data the rest of the result does not; they
are not modelled. -/
structure FilterResult where
  total_matches : Nat
  companies : List Company
deriving DecidableEq

/-- Lines 351-411: fetch the full collection, apply the supplied filters,
truncate to `limit`, and report the truncated list with its length. -/
def filter_companies (f : Fetch (List Company)) (ps : FilterParams)
    (limit : Int) : Result FilterResult :=
  match list_all_companies f with
  | .error e => .error e
  | .ok allC =>
      let truncated := pySliceTo (applyFilters ps allC) limit
      .ok { total_matches := truncated.length, companies := truncated }

/-- Labels one record contributes to `get_industry_stats` (line 431):
`company.get("industries", ["Unknown"])`. -/
def industryLabels (c : Company) : List Str := c.industries.getD [UNKNOWN]

/-- Labels one record contributes to `get_tag_stats` (line 464):
`company.get("tags", [])`. -/
def tagLabels (c : Company) : List Str := c.tags.getD []

/-- The counting loops of lines 429-432 and 462-465. -/
def countLabels (labels : Company → List Str) (cs : List Company) :
    List (Str × Nat) :=
  List.foldl (fun m c => List.foldl bumpKey m (labels c)) [] cs

/-- Stable insertion of one entry into a count-descending list: the entry goes
after every entry with a strictly larger or equal count. -/
def insertDesc (x : Str × Nat) : List (Str × Nat) → List (Str × Nat)
  | [] => [x]
  | y :: ys => if x.2 < y.2 then y :: insertDesc x ys else x :: y :: ys

/-- Python `sorted(items, key=lambda x: x[1], reverse=True)`: a stable sort by
count descending (lines 435 and 468). -/
def sortDesc : List (Str × Nat) → List (Str × Nat)
  | [] => []
  | x :: xs => insertDesc x (sortDesc xs)

/-- Payload of the two stats tools. -/
structure StatsResult where
  total_companies : Nat
  stats : List (Str × Nat)
deriving DecidableEq

/-- Lines 413-444: industry counts over the full collection, sorted by count
descending. -/
def get_industry_stats (f : Fetch (List Company)) : Result StatsResult :=
  match list_all_companies f with
  | .error e => .error e
  | .ok cs =>
      .ok { total_companies := cs.length
          , stats := sortDesc (countLabels industryLabels cs) }

/-- Lines 446-477: tag counts over the full collection, sorted by count
descending. -/
def get_tag_stats (f : Fetch (List Company)) : Result StatsResult :=
  match list_all_companies f with
  | .error e => .error e
  | .ok cs =>
      .ok { total_companies := cs.length
          , stats := sortDesc (countLabels tagLabels cs) }

/-- Payload of the industry, tag and batch resource handlers. -/
structure ResourceSummary where
  summary : Str
  count : Nat
deriving DecidableEq

/-- Lines 518-537: the industry resource handler (all accesses via `.get`, so
it never raises). -/
def industry_resource (f : Fetch (List Company)) (ind : Str) :
    Result ResourceSummary :=
  match list_companies_by_industry f ind with
  | .error e => .error e
  | .ok r =>
      .ok { summary := strLit "Industry: " ++ ind ++ strLit " - " ++
                       natToStr r.companies.length ++ strLit " companies"
          , count := r.companies.length }

/-- Lines 539-558: the tag resource handler. -/
def tag_resource (f : Fetch (List Company)) (tag : Str) :
    Result ResourceSummary :=
  match list_companies_by_tag f tag with
  | .error e => .error e
  | .ok r =>
      .ok { summary := strLit "Tag: " ++ tag ++ strLit " - " ++
                       natToStr r.companies.length ++ strLit " companies"
          , count := r.companies.length }

/-- Lines 560-579: the batch resource handler. -/
def batch_resource (f : Fetch (List Company)) (batch : Str) :
    Result ResourceSummary :=
  match list_companies_by_batch f batch with
  | .error e => .error e
  | .ok r =>
      .ok { summary := strLit "Batch: " ++ batch ++ strLit " - " ++
                       natToStr r.companies.length ++ strLit " companies"
          , count := r.companies.length }

/-- Modelled from the spec: a team-size range predicate.  The operation
`list_companies_by_team_size` is named by the spec (section 4.2's team_size
range row and the section 8 scenario) but is absent from the source tree; per
the spec the predicate is boundary-inclusive over `[min, max]`, unbounded
above when `max` is omitted, and a missing `team_size` defaults to 0. -/
def teamSizePred (minSize : Nat) (maxSize : Option Nat) (c : Company) : Bool :=
  minSize ≤ c.team_size.getD 0 &&
  (match maxSize with
   | some m => c.team_size.getD 0 ≤ m
   | none => true)

/-- Modelled from the spec: `list_companies_by_team_size` filters the fetched
collection by the boundary-inclusive team-size range. -/
def list_companies_by_team_size (f : Fetch (List Company)) (minSize : Nat)
    (maxSize : Option Nat) : Result (List Company) :=
  match f with
  | .err e => .error e
  | .ok cs => .ok (cs.filter (teamSizePred minSize maxSize))

/-- The spec's keyword rule, stated from its words (section 4.2's table): the
lower-cased keyword is a substring of the lower-cased value of at least one of
`name`, `one_liner`, `long_description` (missing scalar fields read as the
empty string per section 3's invariants). -/
def specKeywordMatch (kw : Str) (c : Company) : Bool :=
  isSubstr (lowerStr kw) (lowerStr (c.name.getD [])) ||
  isSubstr (lowerStr kw) (lowerStr (c.one_liner.getD [])) ||
  isSubstr (lowerStr kw) (lowerStr (c.long_description.getD []))

/-- Union of two predicate sets, field by field (first supplied value wins). -/
def orOpt (a b : Option Str) : Option Str :=
  match a with
  | some x => some x
  | none => b

/-- Two optional parameters denote a well-defined union when at most one is
supplied, or both carry the same value. -/
def compatOpt (a b : Option Str) : Prop := a = none ∨ b = none ∨ a = b

/-- Field-wise union of two predicate sets of `filter_companies`. -/
def FilterParams.union (p q : FilterParams) : FilterParams :=
  { keyword := orOpt p.keyword q.keyword
  , industry := orOpt p.industry q.industry
  , batch := orOpt p.batch q.batch
  , tag := orOpt p.tag q.tag }

/-- Two predicate sets with a well-defined union (no field supplied twice with
different values). -/
def FilterParams.compat (p q : FilterParams) : Prop :=
  compatOpt p.keyword q.keyword ∧ compatOpt p.industry q.industry ∧
  compatOpt p.batch q.batch ∧ compatOpt p.tag q.tag

/-- The empty predicate set (every parameter left at its Python `None`
default). -/
def psNone : FilterParams :=
  { keyword := none, industry := none, batch := none, tag := none }

/-- A record with team_size 5. -/
def co5 : Company :=
  { Company.empty with name := some (strLit "small"), team_size := some 5 }

/-- A record with team_size 10. -/
def co10 : Company :=
  { Company.empty with name := some (strLit "mid"), team_size := some 10 }

/-- A record with team_size 50. -/
def co50 : Company :=
  { Company.empty with name := some (strLit "large"), team_size := some 50 }

/-- A record with a name and no team_size. -/
def coNoTs : Company := { Company.empty with name := some (strLit "x") }

/-- A record with team_size 7. -/
def coB : Company :=
  { Company.empty with name := some (strLit "y"), team_size := some 7 }

/-- A record with only a name. -/
def coA : Company := { Company.empty with name := some (strLit "Acme") }

/-- A record carrying exactly one industry. -/
def coInds : Company :=
  { Company.empty with industries := some [strLit "Fintech"] }

/-- A record with an explicitly empty industries list. -/
def coEmptyInds : Company :=
  { Company.empty with industries := some ([] : List Str) }

/-- A record whose keyword match could only come from long_description. -/
def coLong : Company :=
  { Company.empty with
      name := some (strLit "a"),
      long_description := some (strLit "zzz") }

/-- A record matching the keyword "ai" on name and one_liner. -/
def coMatch : Company :=
  { Company.empty with
      name := some (strLit "Acme AI"),
      one_liner := some (strLit "ai tools") }

theorem lowerCp_upperCp (n : Nat) : lowerCp (upperCp n) = lowerCp n := by
  simp only [lowerCp, upperCp]
  split_ifs <;> omega

theorem lowerCp_lowerCp (n : Nat) : lowerCp (lowerCp n) = lowerCp n := by
  simp only [lowerCp]
  split_ifs <;> omega

theorem lowerStr_upperStr (s : Str) : lowerStr (upperStr s) = lowerStr s := by
  simp [lowerStr, upperStr, List.map_map, Function.comp, lowerCp_upperCp]

theorem lowerStr_lowerStr (s : Str) : lowerStr (lowerStr s) = lowerStr s := by
  simp [lowerStr, List.map_map, Function.comp, lowerCp_lowerCp]

theorem upperStr_eq_nil_iff (s : Str) : upperStr s = [] ↔ s = [] := by
  simp [upperStr]

theorem lowerStr_eq_nil_iff (s : Str) : lowerStr s = [] ↔ s = [] := by
  simp [lowerStr]

theorem isSubstr_nil_needle (h : Str) : isSubstr [] h = true := by
  cases h <;> simp [isSubstr, isPrefixCp, List.isEmpty]

theorem isPrefixCp_append_self (x b : Str) : isPrefixCp x (x ++ b) = true := by
  induction x with
  | nil => rfl
  | cons a t ih => simp [isPrefixCp, ih]

theorem isSubstr_append_mid (a x b : Str) :
    isSubstr x (a ++ (x ++ b)) = true := by
  induction a with
  | nil =>
      cases x with
      | nil => exact isSubstr_nil_needle b
      | cons c cs =>
          have h := isPrefixCp_append_self (c :: cs) b
          simp only [List.cons_append] at h
          simp [isSubstr, h]
  | cons d ds ih => simp [isSubstr, ih]

theorem searchFilter_error_of_noname (kw : Str) (cs : List Company)
    (h : ∃ c ∈ cs, c.name = none) :
    searchFilter kw cs = .error pyKeyErrorName := by
  induction cs with
  | nil =>
      obtain ⟨c, hc, _⟩ := h
      exact absurd hc (List.not_mem_nil c)
  | cons c rest ih =>
      obtain ⟨d, hd, hdn⟩ := h
      by_cases hcn : c.name = none
      · simp [searchFilter, searchAccept, hcn]
      · have hd2 : d ∈ rest := by
          cases List.mem_cons.mp hd with
          | inl heq => exact absurd (heq ▸ hdn) hcn
          | inr hmem => exact hmem
        have herr := ih ⟨d, hd2, hdn⟩
        obtain ⟨nm, hnm⟩ := Option.ne_none_iff_exists'.mp hcn
        simp [searchFilter, searchAccept, hnm, herr]

theorem searchAccept_congr (kw1 kw2 : Str) (c : Company)
    (h : lowerStr kw1 = lowerStr kw2) :
    searchAccept kw1 c = searchAccept kw2 c := by
  simp [searchAccept, h]

theorem searchFilter_congr (kw1 kw2 : Str) (cs : List Company)
    (h : lowerStr kw1 = lowerStr kw2) :
    searchFilter kw1 cs = searchFilter kw2 cs := by
  induction cs with
  | nil => rfl
  | cons c rest ih =>
      simp only [searchFilter, searchAccept_congr kw1 kw2 c h, ih]

theorem sumCounts_bumpKey (m : List (Str × Nat)) (k : Str) :
    sumCounts (bumpKey m k) = sumCounts m + 1 := by
  induction m with
  | nil => simp [bumpKey, dictSet, dictGet, sumCounts]
  | cons p rest ih =>
      obtain ⟨k2, v2⟩ := p
      by_cases hk : k2 = k
      · subst hk
        simp [bumpKey, dictSet, dictGet, sumCounts]
        omega
      · simp only [bumpKey, dictSet, dictGet, hk, if_false, sumCounts,
          List.map_cons, List.sum_cons] at ih ⊢
        omega

theorem sumCounts_foldl_bumpKey (ls : List Str) (m : List (Str × Nat)) :
    sumCounts (List.foldl bumpKey m ls) = sumCounts m + ls.length := by
  induction ls generalizing m with
  | nil => simp
  | cons l t ih =>
      simp only [List.foldl_cons, List.length_cons, ih, sumCounts_bumpKey]
      omega

theorem sumCounts_countLabels (labels : Company → List Str)
    (cs : List Company) :
    sumCounts (countLabels labels cs) =
      (cs.map fun c => (labels c).length).sum := by
  suffices h : ∀ m, sumCounts
      (List.foldl (fun m c => List.foldl bumpKey m (labels c)) m cs) =
      sumCounts m + (cs.map fun c => (labels c).length).sum by
    simpa [countLabels, sumCounts] using h []
  induction cs with
  | nil => intro m; simp
  | cons c t ih =>
      intro m
      simp only [List.foldl_cons, List.map_cons, List.sum_cons, ih,
        sumCounts_foldl_bumpKey]
      omega

theorem sumCounts_insertDesc (x : Str × Nat) (m : List (Str × Nat)) :
    sumCounts (insertDesc x m) = x.2 + sumCounts m := by
  induction m with
  | nil => simp [insertDesc, sumCounts]
  | cons y ys ih =>
      by_cases hy : x.2 < y.2
      · simp only [insertDesc, hy, if_true, sumCounts, List.map_cons,
          List.sum_cons] at ih ⊢
        omega
      · simp [insertDesc, hy, sumCounts]

theorem sumCounts_sortDesc (m : List (Str × Nat)) :
    sumCounts (sortDesc m) = sumCounts m := by
  induction m with
  | nil => rfl
  | cons x xs ih =>
      have h1 := sumCounts_insertDesc x (sortDesc xs)
      simp only [sortDesc]
      rw [h1, ih]
      simp [sumCounts]

theorem filter_ext (p q : Company → Bool) (l : List Company)
    (h : ∀ c, p c = q c) : l.filter p = l.filter q := by
  induction l with
  | nil => rfl
  | cons c t ih => rw [List.filter_cons, List.filter_cons, h c, ih]

theorem filter_filter_and (p q : Company → Bool) (l : List Company) :
    (l.filter p).filter q = l.filter fun c => p c && q c := by
  induction l with
  | nil => rfl
  | cons c t ih =>
      by_cases hp : p c <;> by_cases hq : q c <;>
        simp [List.filter_cons, hp, hq, ih]

theorem filter_true_id (l : List Company) : (l.filter fun _ => true) = l := by
  induction l with
  | nil => rfl
  | cons c t ih => simp [List.filter_cons, ih]

theorem applyOpt_eq_filter (o : Option Str) (pred : Str → Company → Bool)
    (cs : List Company) : applyOpt o pred cs = cs.filter (passOpt o pred) := by
  cases o with
  | none =>
      simp only [applyOpt]
      rw [filter_ext (passOpt none pred) (fun _ => true) cs fun c => rfl,
        filter_true_id]
  | some s =>
      by_cases hs : s = []
      · subst hs
        simp only [applyOpt]
        rw [if_pos trivial,
          filter_ext (passOpt (some []) pred) (fun _ => true) cs
            (fun c => by simp [passOpt]),
          filter_true_id]
      · simp only [applyOpt]
        rw [if_neg hs]
        exact filter_ext (pred s) (passOpt (some s) pred) cs fun c => by
          simp [passOpt, hs]

theorem applyFilters_eq_filter (ps : FilterParams) (cs : List Company) :
    applyFilters ps cs = cs.filter (keepPred ps) := by
  simp only [applyFilters, applyOpt_eq_filter, filter_filter_and]
  rfl

theorem passOpt_orOpt (a b : Option Str) (pred : Str → Company → Bool)
    (c : Company) (h : compatOpt a b) :
    passOpt (orOpt a b) pred c = (passOpt a pred c && passOpt b pred c) := by
  rcases h with ha | hb | hab
  · subst ha; simp [orOpt, passOpt]
  · subst hb
    cases a with
    | none => simp [orOpt, passOpt]
    | some s => simp [orOpt, passOpt]
  · subst hab
    cases a with
    | none => simp [orOpt, passOpt]
    | some s => simp [orOpt, passOpt]

theorem keepPred_union (p q : FilterParams) (c : Company)
    (h : FilterParams.compat p q) :
    keepPred (FilterParams.union p q) c = (keepPred p c && keepPred q c) := by
  obtain ⟨h1, h2, h3, h4⟩ := h
  simp only [keepPred, FilterParams.union, passOpt_orOpt _ _ _ _ h1,
    passOpt_orOpt _ _ _ _ h2, passOpt_orOpt _ _ _ _ h3,
    passOpt_orOpt _ _ _ _ h4]
  cases passOpt p.keyword kwPred c <;>
    cases passOpt p.industry industryPred c <;>
    cases passOpt p.batch batchPred c <;>
    cases passOpt p.tag tagPred c <;>
    cases passOpt q.keyword kwPred c <;>
    cases passOpt q.industry industryPred c <;>
    cases passOpt q.batch batchPred c <;>
    cases passOpt q.tag tagPred c <;> rfl

theorem pySliceTo_nonneg {α : Type} (l : List α) (n : Int) (h : 0 ≤ n) :
    pySliceTo l n = l.take n.toNat := by
  simp [pySliceTo, h]

theorem kwPred_congr (s1 s2 : Str) (h : lowerStr s1 = lowerStr s2)
    (c : Company) : kwPred s1 c = kwPred s2 c := by
  simp [kwPred, h]

theorem applyOpt_kw_upper_lower (kw : Str) (cs : List Company) :
    applyOpt (some (upperStr kw)) kwPred cs =
      applyOpt (some (lowerStr kw)) kwPred cs := by
  by_cases hk : kw = []
  · subst hk; rfl
  · have h1 : upperStr kw ≠ [] := by simpa [upperStr_eq_nil_iff] using hk
    have h2 : lowerStr kw ≠ [] := by simpa [lowerStr_eq_nil_iff] using hk
    simp only [applyOpt, if_neg h1, if_neg h2]
    exact filter_ext _ _ cs fun c =>
      kwPred_congr _ _ (by rw [lowerStr_upperStr, lowerStr_lowerStr]) c

theorem isSubstr_mid4 (pre x sep y : Str) :
    isSubstr x (pre ++ x ++ sep ++ y) = true ∧
    isSubstr y (pre ++ x ++ sep ++ y) = true := by
  constructor
  · have h := isSubstr_append_mid pre x (sep ++ y)
    simpa [List.append_assoc] using h
  · have h := isSubstr_append_mid (pre ++ x ++ sep) y []
    simpa [List.append_assoc] using h

theorem labels_sum_ge (cs : List Company)
    (h : ∀ c ∈ cs, c.industries ≠ some []) :
    cs.length ≤ (cs.map fun c => (industryLabels c).length).sum := by
  induction cs with
  | nil => simp
  | cons c t ih =>
      have hc : 1 ≤ (industryLabels c).length := by
        have := h c (List.mem_cons_self c t)
        cases hind : c.industries with
        | none => simp [industryLabels, hind]
        | some l =>
            cases l with
            | nil => exact absurd hind this
            | cons a as => simp [industryLabels, hind]
      have ht := ih fun d hd => h d (List.mem_cons_of_mem c hd)
      simp only [List.map_cons, List.sum_cons, List.length_cons]
      omega

theorem labels_sum_eq (cs : List Company)
    (h : ∀ c ∈ cs, ∃ i, c.industries = some [i]) :
    (cs.map fun c => (industryLabels c).length).sum = cs.length := by
  induction cs with
  | nil => simp
  | cons c t ih =>
      obtain ⟨i, hi⟩ := h c (List.mem_cons_self c t)
      have hc : (industryLabels c).length = 1 := by simp [industryLabels, hi]
      have ht := ih fun d hd => h d (List.mem_cons_of_mem c hd)
      simp only [List.map_cons, List.sum_cons, List.length_cons, hc]
      omega

/-- C4: applying the filters of P1 and then the filters of P2 yields the same
subset as applying the union P1 ∪ P2 (when that union is well defined) in a
single pass; the supplied predicates compose with logical AND — a record is
kept exactly when it satisfies every supplied predicate — and the order of
predicate application does not affect the result. -/
theorem C4_filter_composition (cs : List Company) (p q : FilterParams)
    (h : FilterParams.compat p q) :
    applyFilters q (applyFilters p cs) =
      applyFilters (FilterParams.union p q) cs ∧
    applyFilters q (applyFilters p cs) = applyFilters p (applyFilters q cs) ∧
    ∀ ps : FilterParams, applyFilters ps cs = cs.filter (keepPred ps) := by
  refine ⟨?_, ?_, fun ps => applyFilters_eq_filter ps cs⟩
  · simp only [applyFilters_eq_filter, filter_filter_and]
    exact filter_ext _ _ cs fun c => (keepPred_union p q c h).symm
  · simp only [applyFilters_eq_filter, filter_filter_and]
    exact filter_ext _ _ cs fun c => Bool.and_comm _ _

/-- Witness for C4 at a concrete collection and two concrete compatible
predicate sets. -/
theorem C4_witness :
    applyFilters { psNone with batch := some (strLit "W21") }
        (applyFilters { psNone with keyword := some (strLit "ai") }
          [coMatch, coA]) =
      applyFilters
        (FilterParams.union { psNone with keyword := some (strLit "ai") }
          { psNone with batch := some (strLit "W21") }) [coMatch, coA] :=
  (C4_filter_composition [coMatch, coA]
    { psNone with keyword := some (strLit "ai") }
    { psNone with batch := some (strLit "W21") }
    ⟨Or.inr (Or.inl rfl), Or.inl rfl, Or.inl rfl, Or.inl rfl⟩).1

/-- C6: for the composite operations (batch comparison and company-size
comparison), whenever at least one sub-fetch fails the operation returns a
single combined error result with no partial payload, the combined message
contains each failing sub-fetch's description, and when both fail both
descriptions are preserved. -/
theorem C6_composite_errors (f1 f2 : Fetch (List Company)) (b1 b2 : Str)
    (g1 g2 : Fetch Company) (s1 s2 : Str) :
    ((∃ e, f1 = .err e) ∨ (∃ e, f2 = .err e) →
      ∃ m, compare_companies_by_batch f1 f2 b1 b2 = .error m ∧
        (∀ e, f1 = .err e → isSubstr e m = true) ∧
        (∀ e, f2 = .err e → isSubstr e m = true)) ∧
    ((∃ e, g1 = .err e) ∨ (∃ e, g2 = .err e) →
      ∃ m, compare_company_sizes g1 g2 s1 s2 = .error m ∧
        (∀ e, g1 = .err e → isSubstr e m = true) ∧
        (∀ e, g2 = .err e → isSubstr e m = true)) := by
  constructor
  · intro h
    cases f1 with
    | err e1 =>
        cases f2 with
        | err e2 =>
            refine ⟨strLit "Failed to fetch batch data. " ++ e1 ++
              strLit " " ++ e2, rfl, ?_, ?_⟩
            · intro e he
              cases he
              exact (isSubstr_mid4 (strLit "Failed to fetch batch data. ")
                e1 (strLit " ") e2).1
            · intro e he
              cases he
              exact (isSubstr_mid4 (strLit "Failed to fetch batch data. ")
                e1 (strLit " ") e2).2
        | ok l2 =>
            refine ⟨strLit "Failed to fetch batch data. " ++ e1 ++
              strLit " " ++ strLit "None", rfl, ?_, ?_⟩
            · intro e he
              cases he
              exact (isSubstr_mid4 (strLit "Failed to fetch batch data. ")
                e1 (strLit " ") (strLit "None")).1
            · intro e he
              cases he
    | ok l1 =>
        cases f2 with
        | err e2 =>
            refine ⟨strLit "Failed to fetch batch data. " ++ strLit "None" ++
              strLit " " ++ e2, rfl, ?_, ?_⟩
            · intro e he
              cases he
            · intro e he
              cases he
              exact (isSubstr_mid4 (strLit "Failed to fetch batch data. ")
                (strLit "None") (strLit " ") e2).2
        | ok l2 =>
            rcases h with ⟨e, he⟩ | ⟨e, he⟩ <;> cases he
  · intro h
    cases g1 with
    | err e1 =>
        cases g2 with
        | err e2 =>
            refine ⟨strLit "Failed to fetch details. " ++ e1 ++
              strLit " " ++ e2, rfl, ?_, ?_⟩
            · intro e he
              cases he
              exact (isSubstr_mid4 (strLit "Failed to fetch details. ")
                e1 (strLit " ") e2).1
            · intro e he
              cases he
              exact (isSubstr_mid4 (strLit "Failed to fetch details. ")
                e1 (strLit " ") e2).2
        | ok r2 =>
            refine ⟨strLit "Failed to fetch details. " ++ e1 ++
              strLit " " ++ strLit "None", rfl, ?_, ?_⟩
            · intro e he
              cases he
              exact (isSubstr_mid4 (strLit "Failed to fetch details. ")
                e1 (strLit " ") (strLit "None")).1
            · intro e he
              cases he
    | ok r1 =>
        cases g2 with
        | err e2 =>
            refine ⟨strLit "Failed to fetch details. " ++ strLit "None" ++
              strLit " " ++ e2, rfl, ?_, ?_⟩
            · intro e he
              cases he
            · intro e he
              cases he
              exact (isSubstr_mid4 (strLit "Failed to fetch details. ")
                (strLit "None") (strLit " ") e2).2
        | ok r2 =>
            rcases h with ⟨e, he⟩ | ⟨e, he⟩ <;> cases he

/-- Witness for C6: the spec's scenario — the first batch fetch fails, the
second succeeds, and the result is one error whose message contains the first
failure's description. -/
theorem C6_witness :
    ∃ m, compare_companies_by_batch (Fetch.err (strLit "boom"))
        (Fetch.ok []) (strLit "W21") (strLit "S22") = Result.error m ∧
      isSubstr (strLit "boom") m = true := by
  obtain ⟨m, hm, h1, _⟩ :=
    (C6_composite_errors (Fetch.err (strLit "boom")) (Fetch.ok [])
      (strLit "W21") (strLit "S22") (Fetch.err (strLit "a"))
      (Fetch.err (strLit "b")) (strLit "p") (strLit "q")).1
      (Or.inl ⟨strLit "boom", rfl⟩)
  exact ⟨m, hm, h1 (strLit "boom") rfl⟩

/-- C7: when both detail fetches succeed the size comparison always succeeds
(never an error), missing team_size is treated as 0, and the report is
"slug1 (size1) vs slug2 (size2)"; when the first record lacks team_size the
report is "slug1 (0) vs slug2 (size2)". -/
theorem C7_team_size_comparison (r1 r2 : Company) (s1 s2 : Str) :
    compare_company_sizes (.ok r1) (.ok r2) s1 s2 =
      .ok (s1 ++ strLit " (" ++ natToStr (r1.team_size.getD 0) ++
           strLit ") vs " ++ s2 ++ strLit " (" ++
           natToStr (r2.team_size.getD 0) ++ strLit ")") ∧
    (r1.team_size = none →
      compare_company_sizes (.ok r1) (.ok r2) s1 s2 =
        .ok (s1 ++ strLit " (0) vs " ++ s2 ++ strLit " (" ++
             natToStr (r2.team_size.getD 0) ++ strLit ")")) := by
  constructor
  · rfl
  · intro h
    have h0 : strLit " (0) vs " =
        strLit " (" ++ natToStr 0 ++ strLit ") vs " := by decide
    rw [h0]
    simp [compare_company_sizes, get_company_details, h, List.append_assoc]

/-- Witness for C7: a record without team_size against one with team_size 7. -/
theorem C7_witness :
    compare_company_sizes (Fetch.ok coNoTs) (Fetch.ok coB) (strLit "x")
      (strLit "y") = Result.ok (strLit "x (0) vs y (7)") := by
  have h := (C7_team_size_comparison coNoTs coB (strLit "x") (strLit "y")).2
    rfl
  exact h.trans (by decide)

/-- C9: the team-size range predicate is boundary-inclusive over [min, max]
(unbounded above when max is omitted): with min 10 and max 50 every company
with team_size 5 is excluded and every company with team_size 10 or 50 is
included.  The operation is modelled from the spec (absent from the source
tree). -/
theorem C9_team_size_range (cs res : List Company)
    (h : list_companies_by_team_size (.ok cs) 10 (some 50) = .ok res) :
    res = cs.filter (teamSizePred 10 (some 50)) ∧
    ∀ c ∈ cs, (c.team_size.getD 0 = 5 → c ∉ res) ∧
      (c.team_size.getD 0 = 10 → c ∈ res) ∧
      (c.team_size.getD 0 = 50 → c ∈ res) := by
  have hres : res = cs.filter (teamSizePred 10 (some 50)) := by
    simpa [list_companies_by_team_size] using h.symm
  subst hres
  refine ⟨rfl, fun c hc => ⟨?_, ?_, ?_⟩⟩
  · intro h5 hmem
    have := (List.mem_filter.mp hmem).2
    simp [teamSizePred, h5] at this
  · intro h10
    exact List.mem_filter.mpr ⟨hc, by simp [teamSizePred, h10]⟩
  · intro h50
    exact List.mem_filter.mpr ⟨hc, by simp [teamSizePred, h50]⟩

/-- Witness for C9 at a concrete three-record collection with team sizes 5,
10 and 50. -/
theorem C9_witness :
    co5 ∉ [co10, co50] ∧ co10 ∈ [co10, co50] ∧ co50 ∈ [co10, co50] := by
  have h := C9_team_size_range [co5, co10, co50] [co10, co50] (by decide)
  have h2 : [co10, co50] =
      List.filter (teamSizePred 10 (some 50)) [co5, co10, co50] := h.1
  exact ⟨h2 ▸ (h.2 co5 (by decide)).1 (by decide),
    h2 ▸ (h.2 co10 (by decide)).2.1 (by decide),
    h2 ▸ (h.2 co50 (by decide)).2.2 (by decide)⟩

/-- C10: for every successful invocation of the combined filter operation,
total_matches equals the length of the returned post-truncation list, i.e.
the minimum of the supplied limit and the number of records satisfying all
predicates. -/
theorem C10_total_matches (cs : List Company) (ps : FilterParams)
    (limit : Int) (r : FilterResult)
    (hr : filter_companies (.ok cs) ps limit = .ok r) (hl : 0 ≤ limit) :
    r.total_matches = r.companies.length ∧
    r.total_matches = min limit.toNat (applyFilters ps cs).length := by
  have hr2 : Result.ok ({ total_matches := (pySliceTo (applyFilters ps cs) limit).length, companies := pySliceTo (applyFilters ps cs) limit } : FilterResult) = Result.ok r := hr
  rw [Result.ok.injEq] at hr2
  subst hr2
  constructor
  · rfl
  · show (pySliceTo (applyFilters ps cs) limit).length = _
    rw [pySliceTo_nonneg _ _ hl, List.length_take]

/-- Witness for C10 at a concrete collection, no predicates and limit 1. -/
theorem C10_witness :
    (({ total_matches := 1, companies := [coA] } : FilterResult).total_matches
      = ([coA] : List Company).length) ∧
    (({ total_matches := 1, companies := [coA] } : FilterResult).total_matches
      = min (Int.toNat 1) (applyFilters psNone [coA, coB]).length) :=
  C10_total_matches [coA, coB] psNone 1
    { total_matches := 1, companies := [coA] } (by decide) (by decide)

/-- C8: result truncation takes the first N records in the collection's
original order (no re-sorting), N being the caller-supplied limit, default 10
for the top operation and 50 for the combined filter; the simple list
operations (all, batch, industry, tag, curated subsets) return the full
collection unlimited. -/
theorem C8_truncation (data : List Company) (limit : Int) (hl : 0 ≤ limit)
    (ps : FilterParams) (b ind tg : Str) :
    list_top_companies (.ok data) limit = .ok (data.take limit.toNat) ∧
    listTopDefaultLimit = 10 ∧ filterDefaultLimit = 50 ∧
    filter_companies (.ok data) ps limit =
      .ok { total_matches := ((applyFilters ps data).take limit.toNat).length
          , companies := (applyFilters ps data).take limit.toNat } ∧
    list_all_companies (.ok data) = .ok data ∧
    list_companies_by_batch (.ok data) b =
      .ok { batch := b, companies := data } ∧
    list_companies_by_industry (.ok data) ind =
      .ok { industry := ind, companies := data } ∧
    list_companies_by_tag (.ok data) tg =
      .ok { tag := tg, companies := data } ∧
    list_hiring_companies (.ok data) = .ok data ∧
    list_nonprofit_companies (.ok data) = .ok data ∧
    list_women_founded_companies (.ok data) = .ok data ∧
    list_black_founded_companies (.ok data) = .ok data ∧
    list_hispanic_latino_founded_companies (.ok data) = .ok data := by
  refine ⟨?_, rfl, rfl, ?_, rfl, rfl, rfl, rfl, rfl, rfl, rfl, rfl, rfl⟩
  · simp [list_top_companies, pySliceTo_nonneg _ _ hl]
  · simp [filter_companies, list_all_companies, pySliceTo_nonneg _ _ hl]

/-- Witness for C8: the top operation at limit 1 returns the first record of
the fetched order. -/
theorem C8_witness :
    list_top_companies (Fetch.ok [coA, coB]) 1 = Result.ok [coA] := by
  have h := (C8_truncation [coA, coB] 1 (by decide) psNone (strLit "W21")
    (strLit "fintech") (strLit "ai")).1
  exact h.trans (by decide)

/-- C1 counterexample: the claim says every operation, the resource handlers
included, converts all failures (missing fields among them) into a structured
error result at its own boundary.  `company_resource` has no `try/except` and
reads `result["name"]` directly: on a successfully fetched record with no
name field the `KeyError` propagates uncaught (modelled by `none`), so the
claim is false. -/
theorem C1_counterexample :
    company_resource (Fetch.ok Company.empty) = none := rfl

/-- C1 (amended): every tool converts all failures at its boundary into a
structured error result — in particular keyword search turns an internal
`KeyError` on a record without name into an error result — and the industry,
tag and batch resource handlers forward fetch errors as structured results;
but `company_resource` propagates an uncaught exception exactly when the
fetch succeeds and the record lacks the name field. -/
theorem C1_error_boundary (f : Fetch Company) (g : Fetch (List Company))
    (kw ind tg b : Str) :
    (company_resource f = none ↔ ∃ c, f = .ok c ∧ c.name = none) ∧
    (∀ e, f = .err e → company_resource f = some (.error e)) ∧
    (∀ cs, g = .ok cs → (∃ c ∈ cs, c.name = none) →
      search_companies g kw = .error pyKeyErrorName) ∧
    (∀ e, g = .err e →
      search_companies g kw = .error e ∧
      industry_resource g ind = .error e ∧
      tag_resource g tg = .error e ∧
      batch_resource g b = .error e) := by
  refine ⟨?_, ?_, ?_, ?_⟩
  · cases f with
    | err e => simp [company_resource, get_company_details]
    | ok c =>
        cases hn : c.name with
        | none => simp [company_resource, get_company_details, hn]
        | some nm => simp [company_resource, get_company_details, hn]
  · intro e he
    subst he
    rfl
  · intro cs hg hex
    subst hg
    simp [search_companies, searchFilter_error_of_noname kw cs hex]
  · intro e he
    subst he
    exact ⟨rfl, rfl, rfl, rfl⟩

/-- Witness for C1 (amended): a failed fetch comes back from
`company_resource` as a structured error result. -/
theorem C1_witness :
    company_resource (Fetch.err (strLit "down")) =
      some (Result.error (strLit "down")) :=
  (C1_error_boundary (Fetch.err (strLit "down")) (Fetch.ok [])
    (strLit "a") (strLit "b") (strLit "c") (strLit "d")).2.1
    (strLit "down") rfl

/-- C2 counterexample: the claim says the three-field keyword rule (name,
one_liner, long_description) governs both the keyword-only search operation
and the combined filter's keyword predicate.  A record whose only match is in
long_description satisfies the three-field rule, yet `search_companies`
(which checks only name and one_liner) does not return it. -/
theorem C2_counterexample :
    specKeywordMatch (strLit "zzz") coLong = true ∧
    search_companies (Fetch.ok [coLong]) (strLit "zzz") = Result.ok [] := by
  decide

/-- C2 (amended): the three-field case-insensitive substring rule is exactly
the combined filter's keyword predicate, while the search operation matches
only name and one_liner; for both operations, searching with the upper-cased
and with the lower-cased keyword returns identical results. -/
theorem C2_keyword_rule (kw : Str) (c : Company) (f : Fetch (List Company))
    (ps : FilterParams) (limit : Int) :
    kwPred kw c = specKeywordMatch kw c ∧
    search_companies f (upperStr kw) = search_companies f (lowerStr kw) ∧
    filter_companies f { ps with keyword := some (upperStr kw) } limit =
      filter_companies f { ps with keyword := some (lowerStr kw) } limit := by
  refine ⟨rfl, ?_, ?_⟩
  · cases f with
    | err e => rfl
    | ok cs =>
        simp only [search_companies]
        rw [searchFilter_congr (upperStr kw) (lowerStr kw) cs
          (by rw [lowerStr_upperStr, lowerStr_lowerStr])]
  · cases f with
    | err e => rfl
    | ok cs =>
        simp only [filter_companies, list_all_companies, applyFilters]
        rw [applyOpt_kw_upper_lower]

/-- Witness for C2 (amended): upper- and lower-case search for AIRBNB agree
on a concrete collection. -/
theorem C2_witness :
    search_companies (Fetch.ok [coMatch, coA]) (upperStr (strLit "airbnb")) =
      search_companies (Fetch.ok [coMatch, coA])
        (lowerStr (strLit "airbnb")) :=
  (C2_keyword_rule (strLit "airbnb") coA (Fetch.ok [coMatch, coA]) psNone
    50).2.1

/-- C3 counterexample: the claim says that for both the industries and the
tags aggregation a record with no entries contributes one count to the
sentinel "Unknown", so the counts sum to at least the collection size.  For
tags the source's default is the empty list (no sentinel): a one-record
collection without a tags field yields an empty tag distribution whose counts
sum to 0 < 1; and a record with an explicitly empty industries list likewise
contributes nothing to the industry distribution. -/
theorem C3_counterexample :
    get_tag_stats (Fetch.ok [Company.empty]) =
      Result.ok { total_companies := 1, stats := [] } ∧
    get_industry_stats (Fetch.ok [coEmptyInds]) =
      Result.ok { total_companies := 1, stats := [] } ∧
    sumCounts [] = 0 := by
  decide

/-- C3 (amended): each aggregation counts a record once per entry of its
field; for industries a record missing the field contributes one count to
"Unknown" (a record with an explicitly empty list contributes none), for tags
a record with no entries contributes nothing; the industry counts sum to at
least |C| when no record carries an explicitly empty industries list, and to
exactly |C| when every record has exactly one industry. -/
theorem C3_aggregation_counts (cs : List Company) :
    (∀ r, get_industry_stats (Fetch.ok cs) = .ok r →
      sumCounts r.stats = (cs.map fun c => (industryLabels c).length).sum) ∧
    (∀ r, get_tag_stats (Fetch.ok cs) = .ok r →
      sumCounts r.stats = (cs.map fun c => (tagLabels c).length).sum) ∧
    industryLabels Company.empty = [UNKNOWN] ∧
    ((∀ c ∈ cs, c.industries ≠ some []) →
      cs.length ≤ (cs.map fun c => (industryLabels c).length).sum) ∧
    ((∀ c ∈ cs, ∃ i, c.industries = some [i]) →
      (cs.map fun c => (industryLabels c).length).sum = cs.length) := by
  refine ⟨?_, ?_, rfl, labels_sum_ge cs, labels_sum_eq cs⟩
  · intro r hr
    have hr2 : Result.ok ({ total_companies := cs.length, stats := sortDesc (countLabels industryLabels cs) } : StatsResult) = Result.ok r := hr
    rw [Result.ok.injEq] at hr2
    subst hr2
    show sumCounts (sortDesc (countLabels industryLabels cs)) = _
    rw [sumCounts_sortDesc, sumCounts_countLabels]
  · intro r hr
    have hr2 : Result.ok ({ total_companies := cs.length, stats := sortDesc (countLabels tagLabels cs) } : StatsResult) = Result.ok r := hr
    rw [Result.ok.injEq] at hr2
    subst hr2
    show sumCounts (sortDesc (countLabels tagLabels cs)) = _
    rw [sumCounts_sortDesc, sumCounts_countLabels]

/-- Witness for C3 (amended): a one-record collection with exactly one
industry has industry counts summing to exactly 1. -/
theorem C3_witness :
    sumCounts [(strLit "Fintech", 1)] =
      ([coInds].map fun c => (industryLabels c).length).sum ∧
    ([coInds].map fun c => (industryLabels c).length).sum = 1 := by
  have h := C3_aggregation_counts [coInds]
  refine ⟨?_, ?_⟩
  · exact h.1 { total_companies := 1, stats := [(strLit "Fintech", 1)] }
      (by decide)
  · have hone : ∀ c ∈ [coInds], ∃ i, c.industries = some [i] := by
      intro c hc
      rw [List.mem_singleton.mp hc]
      exact ⟨strLit "Fintech", rfl⟩
    simpa using h.2.2.2.2 hone

/-- C5 counterexample: the claim says a record lacking name is simply
excluded from keyword matching and never makes the keyword search operation
produce an error.  In `search_companies` the record's `c["name"]` raises a
`KeyError` that the operation's boundary converts into an error result, so
the whole search returns an error instead of the matching remaining
records. -/
theorem C5_counterexample :
    search_companies (Fetch.ok [Company.empty, coMatch]) (strLit "ai") =
      Result.error pyKeyErrorName := by
  decide

/-- C5 (amended): in the keyword-only search operation a collection
containing a record without name yields an error result (the caught
KeyError); in the combined filter operation a record without name is treated
as having an empty name — it still participates through one_liner and
long_description — and the operation never errors on a fetched collection. -/
theorem C5_missing_name (cs : List Company) (kw : Str) (c : Company)
    (ps : FilterParams) (limit : Int) :
    ((∃ d ∈ cs, d.name = none) →
      search_companies (Fetch.ok cs) kw = Result.error pyKeyErrorName) ∧
    (c.name = none → kwPred kw c =
      (isSubstr (lowerStr kw) (lowerStr (c.one_liner.getD [])) ||
       isSubstr (lowerStr kw) (lowerStr (c.long_description.getD [])))) ∧
    (∃ r, filter_companies (Fetch.ok cs) ps limit = Result.ok r) := by
  refine ⟨?_, ?_, ⟨_, rfl⟩⟩
  · intro hex
    simp [search_companies, searchFilter_error_of_noname kw cs hex]
  · intro hn
    by_cases hkw : kw = []
    · subst hkw
      simp [kwPred, hn, lowerStr, isSubstr_nil_needle]
    · have hne : lowerStr kw ≠ [] := by
        simpa [lowerStr_eq_nil_iff] using hkw
      cases hl : lowerStr kw with
      | nil => exact absurd hl hne
      | cons a as => simp [kwPred, hn, hl, isSubstr, List.isEmpty]

/-- Witness for C5 (amended): searching a one-record collection whose record
lacks name returns the KeyError error result. -/
theorem C5_witness :
    search_companies (Fetch.ok [Company.empty]) (strLit "ai") =
      Result.error pyKeyErrorName :=
  (C5_missing_name [Company.empty] (strLit "ai") Company.empty psNone 0).1
    ⟨Company.empty, List.mem_singleton.mpr rfl, rfl⟩

end YCMcp
